import Mathlib

/-!
Verification of `pkg/sns/topic.go`

A shallow embedding of the SNS topic wrapper (`topic.Publish`,
`topic.SubscribeSqs`, `topic.subscriptionExists`, `topic.listSubscriptions`,
`NewTopic`, `NewTopicWithInterfaces`) and theorems about it.

Conventions of the embedding:

* a Go pointer `*T` is an `Option T` (`none` is the nil pointer), a slice is a
  `List`, and the nil slice returned next to an error is `none`;
* a Go `error` value is an `Option Error` (`none` is the nil error);
* the SNS client is an interface whose methods may depend on, and change, the
  state of the provider: a client is a record of functions over a state `σ`;
* every call the code makes on a collaborator (client or logger) is recorded, in
  program order, as an `Event`; a run of a function is the triple of its
  outcome, the provider state afterwards and the events of the run;
* a function either returns, panics, or (only for the `for` loop of
  `listSubscriptions`, which has no iteration bound) is still running when the
  loop budget of the model is used up.
-/

namespace sns

/-! ## Data model -/

/-- Go `error` values, identified by their message. -/
structure Error where
  msg : String
  deriving DecidableEq, Repr

/-- Modelled from the spec: `cfg.AppId` is declared outside `topic.go`; the spec
describes it as the identity tuple (account, app, group, environment). -/
structure AppId where
  Account : String
  App : String
  Group : String
  Environment : String
  deriving DecidableEq, Repr

/-- The struct `Settings` (lines 17-22): the embedded `cfg.AppId`, `TopicId`, `Arn`. -/
structure Settings where
  AppId : AppId
  TopicId : String
  Arn : String
  deriving DecidableEq, Repr

/-- Modelled from the spec: `mon.Logger` is declared outside `topic.go`; it is a
structured diagnostic sink.  A logger is a handle; the calls made on it are
recorded as events. -/
structure Logger where
  name : String
  deriving DecidableEq, Repr

/-- The unused `context.Context` argument of `Publish`. -/
structure Context where
  deadline : Option Nat
  deriving DecidableEq, Repr

/-- The AWS SDK struct `sns.Subscription`: five `*string` fields. -/
structure Subscription where
  Endpoint : Option String
  Owner : Option String
  Protocol : Option String
  SubscriptionArn : Option String
  TopicArn : Option String
  deriving DecidableEq, Repr

/-- The fields of `sns.PublishInput` that `Publish` sets (the others keep their
zero value). -/
structure PublishInput where
  TopicArn : Option String
  Message : Option String
  deriving DecidableEq, Repr

/-- The fields of `sns.SubscribeInput` that `SubscribeSqs` sets (the others keep
their zero value). -/
structure SubscribeInput where
  TopicArn : Option String
  Endpoint : Option String
  Protocol : Option String
  deriving DecidableEq, Repr

/-- The AWS SDK struct `sns.ListSubscriptionsByTopicInput`. -/
structure ListSubscriptionsByTopicInput where
  TopicArn : Option String
  NextToken : Option String
  deriving DecidableEq, Repr

/-- The AWS SDK struct `sns.ListSubscriptionsByTopicOutput`; the slice holds
pointers, so an entry may be nil. -/
structure ListSubscriptionsByTopicOutput where
  Subscriptions : List (Option Subscription)
  NextToken : Option String
  deriving DecidableEq, Repr

/-- Log levels used by `topic.go`. -/
inductive Level where
  | Error
  | Info
  deriving DecidableEq, Repr

/-- One call `logger.WithFields(fields).Error(err, msg)` or
`logger.WithFields(fields).Info(msg)`. -/
structure LogEntry where
  level : Level
  fields : List (String × String)
  err : Option Error
  msg : String
  deriving DecidableEq, Repr

/-- A call made on a collaborator, with what it returned to the code. -/
inductive Event where
  | Publish (input : PublishInput) (err : Option Error)
  | Subscribe (input : SubscribeInput) (err : Option Error)
  | ListSubscriptionsByTopic (input : ListSubscriptionsByTopicInput)
      (out : Option ListSubscriptionsByTopicOutput) (err : Option Error)
  | Log (logger : Logger) (entry : LogEntry)
  deriving DecidableEq, Repr

/-- The part of `snsiface.SNSAPI` that `topic.go` calls, over a provider state `σ`.
Each method returns the Go result pair (for `Publish` and `Subscribe` the output
pointer is discarded by the code, so only the error is kept) and the new state. -/
structure SNSAPI (σ : Type) where
  Publish : σ → PublishInput → Option Error × σ
  Subscribe : σ → SubscribeInput → Option Error × σ
  ListSubscriptionsByTopic : σ → ListSubscriptionsByTopicInput →
    (Option ListSubscriptionsByTopicOutput × Option Error) × σ

/-- The struct `topic` (lines 24-29). -/
structure topic (σ : Type) where
  logger : Logger
  client : SNSAPI σ
  settings : Settings

/-- What a Go panic carries: the runtime error of a nil dereference, or the
value given to `panic`. -/
inductive Panic where
  | nilPointerDereference
  | value (err : Error)
  deriving DecidableEq, Repr

/-- How a call ends. -/
inductive Outcome (α : Type) where
  | returned (a : α)
  | panicked (p : Panic)
  | outOfFuel
  deriving DecidableEq, Repr

/-- A run of a function: outcome, provider state afterwards, events in order. -/
structure Run (σ : Type) (α : Type) where
  outcome : Outcome α
  client : σ
  events : List Event

/-! ## The code -/

/-- The function `NewTopicWithInterfaces` (lines 46-52). -/
def NewTopicWithInterfaces {σ : Type} (logger : Logger) (client : SNSAPI σ) (s : Settings)
    (c : σ) : Run σ (topic σ) :=
  ⟨.returned ⟨logger, client, s⟩, c, []⟩

/-- The function `NewTopic` (lines 31-44).  `PadFromConfig`, `GetClient` and
`CreateTopic` are declared outside `topic.go` and are parameters here;
`CreateTopic` talks to the provider, so it is a run of its own. -/
def NewTopic {σ Config : Type}
    (PadFromConfig : Config → Settings → Settings)
    (GetClient : Config → Logger → SNSAPI σ)
    (CreateTopic : Logger → SNSAPI σ → Settings → σ → Run σ (String × Option Error))
    (config : Config) (logger : Logger) (s : Settings) (c : σ) : Run σ (topic σ) :=
  let s := PadFromConfig config s
  let client := GetClient config logger
  let r := CreateTopic logger client s c
  match r.outcome with
  | .returned (arn, err) =>
    match err with
    | some e => ⟨.panicked (.value e), r.client, r.events⟩
    | none =>
      let s := { s with Arn := arn }
      let r2 := NewTopicWithInterfaces logger client s r.client
      ⟨r2.outcome, r2.client, r.events ++ r2.events⟩
  | .panicked p => ⟨.panicked p, r.client, r.events⟩
  | .outOfFuel => ⟨.outOfFuel, r.client, r.events⟩

/-- The method `topic.Publish` (lines 54-69). -/
def topic.Publish {σ : Type} (t : topic σ) (_ctx : Context) (msg : Option String)
    (c : σ) : Run σ (Option Error) :=
  let input : PublishInput := { TopicArn := some t.settings.Arn, Message := msg }
  let (err, c1) := t.client.Publish c input
  let ev := [Event.Publish input err]
  match err with
  | some e =>
    ⟨.returned (some e), c1,
      ev ++ [Event.Log t.logger
        ⟨.Error, [("arn", t.settings.Arn)], some e, "could not publish message to topic"⟩]⟩
  | none => ⟨.returned none, c1, ev⟩

/-- The loop of `topic.listSubscriptions` (lines 138-152): `fuel` bounds the number
of iterations, `input` and `subscriptions` are the loop variables. -/
def topic.listSubscriptionsLoop {σ : Type} (t : topic σ) :
    Nat → ListSubscriptionsByTopicInput → List (Option Subscription) → σ →
      Run σ (Option (List (Option Subscription)) × Option Error)
  | 0, _, _, c => ⟨.outOfFuel, c, []⟩
  | fuel + 1, input, subscriptions, c =>
    let (res, c1) := t.client.ListSubscriptionsByTopic c input
    let ev := Event.ListSubscriptionsByTopic input res.1 res.2
    match res with
    | (_, some err) => ⟨.returned (none, some err), c1, [ev]⟩
    | (none, none) => ⟨.panicked .nilPointerDereference, c1, [ev]⟩
    | (some out, none) =>
      let subscriptions := subscriptions ++ out.Subscriptions
      match out.NextToken with
      | none => ⟨.returned (some subscriptions, none), c1, [ev]⟩
      | some tok =>
        let r := t.listSubscriptionsLoop fuel { input with NextToken := some tok } subscriptions c1
        ⟨r.outcome, r.client, ev :: r.events⟩

/-- The method `topic.listSubscriptions` (lines 131-155). -/
def topic.listSubscriptions {σ : Type} (t : topic σ) (fuel : Nat) (c : σ) :
    Run σ (Option (List (Option Subscription)) × Option Error) :=
  t.listSubscriptionsLoop fuel { TopicArn := some t.settings.Arn, NextToken := none } [] c

/-- The `for ... range` loop of `topic.subscriptionExists` (lines 122-128):
`*s.Endpoint` dereferences the entry and then its `Endpoint`. -/
def subscriptionExistsLoop (queueArn : String) :
    List (Option Subscription) → Outcome (Bool × Option Error)
  | [] => .returned (false, none)
  | none :: _ => .panicked .nilPointerDereference
  | some s :: rest =>
    match s.Endpoint with
    | none => .panicked .nilPointerDereference
    | some e => if e = queueArn then .returned (true, none) else subscriptionExistsLoop queueArn rest

/-- The method `topic.subscriptionExists` (lines 115-129).  Ranging over the nil
slice is ranging over the empty one. -/
def topic.subscriptionExists {σ : Type} (t : topic σ) (fuel : Nat) (queueArn : String)
    (c : σ) : Run σ (Bool × Option Error) :=
  let r := t.listSubscriptions fuel c
  match r.outcome with
  | .returned (subscriptions, err) =>
    match err with
    | some e => ⟨.returned (false, some e), r.client, r.events⟩
    | none => ⟨subscriptionExistsLoop queueArn (subscriptions.getD []), r.client, r.events⟩
  | .panicked p => ⟨.panicked p, r.client, r.events⟩
  | .outOfFuel => ⟨.outOfFuel, r.client, r.events⟩

/-- The fields `mon.Fields{"topicArn": ..., "queueArn": ...}` of `SubscribeSqs`. -/
def subscribeFields (topicArn queueArn : String) : List (String × String) :=
  [("topicArn", topicArn), ("queueArn", queueArn)]

/-- The method `topic.SubscribeSqs` (lines 71-113). -/
def topic.SubscribeSqs {σ : Type} (t : topic σ) (fuel : Nat) (queueArn : String)
    (c : σ) : Run σ (Option Error) :=
  let r := t.subscriptionExists fuel queueArn c
  let fields := subscribeFields t.settings.Arn queueArn
  match r.outcome with
  | .returned (exists_, err) =>
    match err with
    | some e =>
      ⟨.returned (some e), r.client,
        r.events ++ [Event.Log t.logger
          ⟨.Error, fields, some e, "can not check if subscription already exists"⟩]⟩
    | none =>
      if exists_ then
        ⟨.returned none, r.client,
          r.events ++ [Event.Log t.logger
            ⟨.Info, fields, none, "already subscribed to sns topic"⟩]⟩
      else
        let input : SubscribeInput :=
          { TopicArn := some t.settings.Arn, Endpoint := some queueArn, Protocol := some "sqs" }
        let (err, c1) := t.client.Subscribe r.client input
        let errorLog :=
          match err with
          | some e => [Event.Log t.logger
              ⟨.Error, fields, some e, "could not subscribe for sqs queue"⟩]
          | none => []
        ⟨.returned err, c1,
          r.events ++ [Event.Subscribe input err] ++ errorLog ++ [Event.Log t.logger
            ⟨.Info, fields, none, "successful subscribed to sns topic"⟩]⟩
  | .panicked p => ⟨.panicked p, r.client, r.events⟩
  | .outOfFuel => ⟨.outOfFuel, r.client, r.events⟩

/-! ## Observations on event sequences -/

/-- The `Subscribe` inputs among the events, in order. -/
def subscribeCalls : List Event → List SubscribeInput
  | [] => []
  | Event.Subscribe input _ :: rest => input :: subscribeCalls rest
  | _ :: rest => subscribeCalls rest

/-- The `Publish` inputs among the events, in order. -/
def publishCalls : List Event → List PublishInput
  | [] => []
  | Event.Publish input _ :: rest => input :: publishCalls rest
  | _ :: rest => publishCalls rest

/-- The `ListSubscriptionsByTopic` inputs among the events, in order. -/
def listCalls : List Event → List ListSubscriptionsByTopicInput
  | [] => []
  | Event.ListSubscriptionsByTopic input _ _ :: rest => input :: listCalls rest
  | _ :: rest => listCalls rest

/-- The log entries among the events, in order. -/
def logEntries : List Event → List LogEntry
  | [] => []
  | Event.Log _ entry :: rest => entry :: logEntries rest
  | _ :: rest => logEntries rest

/-! ## Page sequences of a provider -/

/-- The continuation token sent on call `k + 1` (counting from `k = 0`) when the
provider answers a token `tok` with the page `p tok` and the first call sends
`start`: call `k + 2` sends the token returned by page `k + 1`. -/
def sentToken (p : Option String → ListSubscriptionsByTopicOutput) (start : Option String) :
    Nat → Option String
  | 0 => start
  | k + 1 => (p (sentToken p start k)).NextToken

/-- Starting in state `c` with continuation token `tok`, the provider answers the
successive page fetches for `arn` with the pages `pages`, each of them carrying a
next token, and then fails the following fetch with the error `e`. -/
def FailsAfter {σ : Type} (client : SNSAPI σ) (arn : Option String) (e : Error) :
    List ListSubscriptionsByTopicOutput → σ → Option String → Prop
  | [], c, tok => ∃ out, (client.ListSubscriptionsByTopic c ⟨arn, tok⟩).1 = (out, some e)
  | pg :: rest, c, tok =>
    (client.ListSubscriptionsByTopic c ⟨arn, tok⟩).1 = (some pg, none) ∧
      ∃ next, pg.NextToken = some next ∧
        FailsAfter client arn e rest (client.ListSubscriptionsByTopic c ⟨arn, tok⟩).2 (some next)

/-! ## Test doubles -/

/-- A provider double whose state is the listing of the topic: it lists the whole
state as one page, `Subscribe` succeeds and appends a subscription with the
given endpoint, `Publish` succeeds. -/
def stubClient : SNSAPI (List (Option Subscription)) where
  Publish c _ := (none, c)
  Subscribe c input :=
    (none, c ++ [some ⟨input.Endpoint, none, input.Protocol, none, input.TopicArn⟩])
  ListSubscriptionsByTopic c _ := ((some ⟨c, none⟩, none), c)

/-- A stateless provider double: `Publish` and `Subscribe` return fixed results and
a listing request is answered from its continuation token alone. -/
def fixedClient (publishErr subscribeErr : Option Error)
    (pages : Option String → Option ListSubscriptionsByTopicOutput × Option Error) :
    SNSAPI Unit where
  Publish c _ := (publishErr, c)
  Subscribe c _ := (subscribeErr, c)
  ListSubscriptionsByTopic c input := (pages input.NextToken, c)

/-- A subscription of which only the endpoint is set. -/
def subscriptionWithEndpoint (endpoint : Option String) : Subscription :=
  ⟨endpoint, none, none, none, none⟩

/-- Settings with the given ARN. -/
def settingsWithArn (arn : String) : Settings :=
  ⟨⟨"acc", "app", "grp", "env"⟩, "orders", arn⟩

/-- A `CreateTopic` double: it returns the fixed pair and makes no call. -/
def createTopicStub (result : String × Option Error) :
    Logger → SNSAPI Unit → Settings → Unit → Run Unit (String × Option Error) :=
  fun _ _ _ c => ⟨.returned result, c, []⟩

/-- A `PadFromConfig` double: it fills an empty environment from the configuration. -/
def padStub (config : String) (s : Settings) : Settings :=
  if s.AppId.Environment = "" then { s with AppId := { s.AppId with Environment := config } }
  else s

/-- A `GetClient` double. -/
def getClientStub (_config : String) (_logger : Logger) : SNSAPI Unit :=
  fixedClient none none (fun _ => (none, none))

/-- A provider double with two pages: the first carries the token `t1`. -/
def twoPages (tok : Option String) : ListSubscriptionsByTopicOutput :=
  if tok = some "t1" then ⟨[some (subscriptionWithEndpoint (some "queueArnB"))], none⟩
  else ⟨[some (subscriptionWithEndpoint (some "queueArnA"))], some "t1"⟩

/-- A provider double whose first page carries the token `t1` and whose second
fetch fails. -/
def failsOnSecond (tok : Option String) :
    Option ListSubscriptionsByTopicOutput × Option Error :=
  if tok = some "t1" then (none, some ⟨"throttled"⟩)
  else (some ⟨[some (subscriptionWithEndpoint (some "queueArnA"))], some "t1"⟩, none)

/-! ## Publish -/

/-- C5. For every message and every client, `Publish` issues exactly one
`client.Publish` call (and no other client call), with `TopicArn` the ARN of the
settings and `Message` the given message; it returns exactly the error of that
call; it emits exactly one error-level log entry with the field `arn` set to the
ARN of the settings when that error is non-nil, and no log entry when it is nil. -/
theorem Publish_propagates {σ : Type} (t : topic σ) (ctx : Context) (msg : Option String)
    (c : σ) :
    (t.Publish ctx msg c).outcome =
        .returned (t.client.Publish c ⟨some t.settings.Arn, msg⟩).1 ∧
      (t.Publish ctx msg c).client = (t.client.Publish c ⟨some t.settings.Arn, msg⟩).2 ∧
      publishCalls (t.Publish ctx msg c).events = [⟨some t.settings.Arn, msg⟩] ∧
      subscribeCalls (t.Publish ctx msg c).events = [] ∧
      listCalls (t.Publish ctx msg c).events = [] ∧
      logEntries (t.Publish ctx msg c).events =
        (match (t.client.Publish c ⟨some t.settings.Arn, msg⟩).1 with
         | some e => [⟨.Error, [("arn", t.settings.Arn)], some e,
             "could not publish message to topic"⟩]
         | none => []) ∧
      (t.Publish ctx msg c).events.head? =
        some (Event.Publish ⟨some t.settings.Arn, msg⟩
          (t.client.Publish c ⟨some t.settings.Arn, msg⟩).1) := by
  unfold topic.Publish
  cases h : (t.client.Publish c ⟨some t.settings.Arn, msg⟩).1 <;>
    simp [h, publishCalls, subscribeCalls, listCalls, logEntries]

/-- Publishing through a failing client returns the client's error and logs it once. -/
theorem Publish_propagates_witness :
    ((⟨⟨"log"⟩, fixedClient (some ⟨"boom"⟩) none (fun _ => (none, none)),
        settingsWithArn "arn:orders"⟩ : topic Unit).Publish ⟨none⟩ (some "order created")
        ()).outcome = .returned (some ⟨"boom"⟩) :=
  (Publish_propagates ⟨⟨"log"⟩, fixedClient (some ⟨"boom"⟩) none (fun _ => (none, none)),
    settingsWithArn "arn:orders"⟩ ⟨none⟩ (some "order created") ()).1

/-! ## Construction -/

/-- C8. `NewTopic` panics with the error, returning no instance, whenever
`CreateTopic` returns a non-nil error; whenever `CreateTopic` returns `(arn, nil)`
it returns a topic holding the given logger, the client obtained from the
configuration, and the padded settings with `Arn` set to `arn` (so all other
fields are those of the padded settings), making no call beyond those of
`CreateTopic`; `NewTopicWithInterfaces` makes no call, leaves the provider
untouched and stores the given logger, client and settings unchanged. -/
theorem NewTopic_construction {σ Config : Type}
    (PadFromConfig : Config → Settings → Settings)
    (GetClient : Config → Logger → SNSAPI σ)
    (CreateTopic : Logger → SNSAPI σ → Settings → σ → Run σ (String × Option Error))
    (config : Config) (logger : Logger) (s : Settings) (c : σ) :
    (∀ arn e,
        (CreateTopic logger (GetClient config logger) (PadFromConfig config s) c).outcome =
            .returned (arn, some e) →
          (NewTopic PadFromConfig GetClient CreateTopic config logger s c).outcome =
            .panicked (.value e)) ∧
      (∀ arn,
        (CreateTopic logger (GetClient config logger) (PadFromConfig config s) c).outcome =
            .returned (arn, none) →
          (NewTopic PadFromConfig GetClient CreateTopic config logger s c).outcome =
              .returned ⟨logger, GetClient config logger,
                ⟨(PadFromConfig config s).AppId, (PadFromConfig config s).TopicId, arn⟩⟩ ∧
            (NewTopic PadFromConfig GetClient CreateTopic config logger s c).events =
              (CreateTopic logger (GetClient config logger) (PadFromConfig config s) c).events ∧
            (NewTopic PadFromConfig GetClient CreateTopic config logger s c).client =
              (CreateTopic logger (GetClient config logger) (PadFromConfig config s) c).client) ∧
      (∀ (client : SNSAPI σ),
        NewTopicWithInterfaces logger client s c = ⟨.returned ⟨logger, client, s⟩, c, []⟩ ∧
          (NewTopicWithInterfaces logger client s c).events = []) := by
  refine ⟨?_, ?_, ?_⟩
  · intro arn e h
    simp [NewTopic, h]
  · intro arn h
    simp [NewTopic, h, NewTopicWithInterfaces]
  · intro client
    simp [NewTopicWithInterfaces]

/-- A failing `CreateTopic` makes `NewTopic` panic with its error, and a successful
one yields a topic whose settings carry the returned ARN. -/
theorem NewTopic_construction_witness :
    (NewTopic padStub getClientStub (createTopicStub ("", some ⟨"denied"⟩)) "prod" ⟨"log"⟩
        ⟨⟨"acc", "app", "grp", ""⟩, "orders", ""⟩ ()).outcome = .panicked (.value ⟨"denied"⟩) ∧
      (NewTopic padStub getClientStub (createTopicStub ("arn:aws:sns:orders", none)) "prod"
        ⟨"log"⟩ ⟨⟨"acc", "app", "grp", ""⟩, "orders", ""⟩ ()).outcome =
        .returned ⟨⟨"log"⟩, getClientStub "prod" ⟨"log"⟩,
          ⟨⟨"acc", "app", "grp", "prod"⟩, "orders", "arn:aws:sns:orders"⟩⟩ :=
  ⟨(NewTopic_construction padStub getClientStub (createTopicStub ("", some ⟨"denied"⟩)) "prod"
      ⟨"log"⟩ ⟨⟨"acc", "app", "grp", ""⟩, "orders", ""⟩ ()).1 "" ⟨"denied"⟩ rfl,
    ((NewTopic_construction padStub getClientStub
      (createTopicStub ("arn:aws:sns:orders", none)) "prod"
      ⟨"log"⟩ ⟨⟨"acc", "app", "grp", ""⟩, "orders", ""⟩ ()).2.1 "arn:aws:sns:orders" rfl).1⟩

/-! ## Listing -/

theorem sentToken_zero (p : Option String → ListSubscriptionsByTopicOutput)
    (start : Option String) : sentToken p start 0 = start := rfl

theorem sentToken_shift (p : Option String → ListSubscriptionsByTopicOutput)
    (start : Option String) (k : Nat) :
    sentToken p start (k + 1) = sentToken p (p start).NextToken k := by
  induction k with
  | zero => rfl
  | succ k ih =>
    show (p (sentToken p start (k + 1))).NextToken = (p (sentToken p _ k)).NextToken
    rw [ih]

/-- The listing loop calls nothing but `ListSubscriptionsByTopic`. -/
theorem listSubscriptionsLoop_only_lists {σ : Type} (t : topic σ) :
    ∀ (fuel : Nat) (input : ListSubscriptionsByTopicInput)
      (acc : List (Option Subscription)) (c : σ),
      subscribeCalls (t.listSubscriptionsLoop fuel input acc c).events = [] ∧
        publishCalls (t.listSubscriptionsLoop fuel input acc c).events = [] ∧
        logEntries (t.listSubscriptionsLoop fuel input acc c).events = [] := by
  intro fuel
  induction fuel with
  | zero => intro input acc c; simp [topic.listSubscriptionsLoop, subscribeCalls, publishCalls,
      logEntries]
  | succ fuel ih =>
    intro input acc c
    rcases h : t.client.ListSubscriptionsByTopic c input with ⟨⟨out, err⟩, c1⟩
    cases err with
    | some e => simp [topic.listSubscriptionsLoop, h, subscribeCalls, publishCalls, logEntries]
    | none =>
      cases out with
      | none => simp [topic.listSubscriptionsLoop, h, subscribeCalls, publishCalls, logEntries]
      | some o =>
        cases hn : o.NextToken with
        | none =>
          simp [topic.listSubscriptionsLoop, h, hn, subscribeCalls, publishCalls, logEntries]
        | some tok =>
          have := ih { input with NextToken := some tok } (acc ++ o.Subscriptions) c1
          simpa [topic.listSubscriptionsLoop, h, hn, subscribeCalls, publishCalls, logEntries]
            using this

/-- The listing loop over a provider that answers by `p`: with `n + 1` pages to go,
of which only the last has no next token, it returns the accumulator followed by
the pages and makes `n + 1` calls. -/
theorem listSubscriptionsLoop_pages {σ : Type} (t : topic σ)
    (p : Option String → ListSubscriptionsByTopicOutput) (arn : Option String)
    (hclient : ∀ st tok,
      (t.client.ListSubscriptionsByTopic st ⟨arn, tok⟩).1 = (some (p tok), none)) :
    ∀ (n : Nat) (start : Option String) (acc : List (Option Subscription)) (c : σ)
      (fuel : Nat),
      (∀ k, k < n → (p (sentToken p start k)).NextToken ≠ none) →
      (p (sentToken p start n)).NextToken = none →
      n + 1 ≤ fuel →
      (t.listSubscriptionsLoop fuel ⟨arn, start⟩ acc c).outcome =
          .returned (some (acc ++ (List.range (n + 1)).flatMap
            fun k => (p (sentToken p start k)).Subscriptions), none) ∧
        (t.listSubscriptionsLoop fuel ⟨arn, start⟩ acc c).events =
          (List.range (n + 1)).map fun k =>
            Event.ListSubscriptionsByTopic ⟨arn, sentToken p start k⟩
              (some (p (sentToken p start k))) none := by
  intro n
  induction n with
  | zero =>
    intro start acc c fuel _ hlast hfuel
    obtain ⟨f, rfl⟩ : ∃ f, fuel = f + 1 := ⟨fuel - 1, by omega⟩
    have hc := hclient c start
    rcases h : t.client.ListSubscriptionsByTopic c ⟨arn, start⟩ with ⟨res, c1⟩
    rw [h] at hc
    simp only at hc
    subst hc
    simp only [sentToken] at hlast
    have hr : List.range (0 + 1) = [0] := rfl
    simp [topic.listSubscriptionsLoop, h, hlast, sentToken, hr]
  | succ n ih =>
    intro start acc c fuel hmid hlast hfuel
    obtain ⟨f, rfl⟩ : ∃ f, fuel = f + 1 := ⟨fuel - 1, by omega⟩
    have hc := hclient c start
    rcases h : t.client.ListSubscriptionsByTopic c ⟨arn, start⟩ with ⟨res, c1⟩
    rw [h] at hc
    simp only at hc
    subst hc
    have h0 := hmid 0 (by omega)
    simp only [sentToken] at h0
    obtain ⟨tok, htok⟩ : ∃ tok, (p start).NextToken = some tok :=
      Option.ne_none_iff_exists'.mp h0
    have hmid' : ∀ k, k < n → (p (sentToken p (some tok) k)).NextToken ≠ none := by
      intro k hk
      have := hmid (k + 1) (by omega)
      rwa [sentToken_shift, htok] at this
    have hlast' : (p (sentToken p (some tok) n)).NextToken = none := by
      rwa [sentToken_shift, htok] at hlast
    have hrec := ih (some tok) (acc ++ (p start).Subscriptions) c1 f hmid' hlast' (by omega)
    have hshift : ∀ k, sentToken p start (k + 1) = sentToken p (some tok) k := by
      intro k
      rw [sentToken_shift, htok]
    constructor
    · simp only [topic.listSubscriptionsLoop, h, htok]
      rw [hrec.1, List.range_succ_eq_map (n + 1)]
      simp [List.flatMap_map, hshift, sentToken_zero, List.flatMap_cons, List.append_assoc]
    · simp only [topic.listSubscriptionsLoop, h, htok]
      rw [hrec.2, List.range_succ_eq_map (n + 1)]
      simp [List.map_map, hshift, sentToken_zero, Function.comp_def]

theorem listCalls_map {α : Type} (l : List α) (f : α → ListSubscriptionsByTopicInput)
    (g : α → Option ListSubscriptionsByTopicOutput) (h : α → Option Error) :
    listCalls (l.map fun k => Event.ListSubscriptionsByTopic (f k) (g k) (h k)) = l.map f := by
  induction l with
  | nil => rfl
  | cons a l ih => simp [listCalls, ih]

/-- The listing loop over a provider that serves `pages` and then fails with `e`:
it returns `(nil, e)` after one call per page and the failing call. -/
theorem listSubscriptionsLoop_fails {σ : Type} (t : topic σ) (arn : Option String)
    (e : Error) :
    ∀ (pages : List ListSubscriptionsByTopicOutput) (c : σ) (tok : Option String)
      (acc : List (Option Subscription)) (fuel : Nat),
      FailsAfter t.client arn e pages c tok →
      pages.length + 1 ≤ fuel →
      (t.listSubscriptionsLoop fuel ⟨arn, tok⟩ acc c).outcome = .returned (none, some e) ∧
        listCalls (t.listSubscriptionsLoop fuel ⟨arn, tok⟩ acc c).events =
          (tok :: pages.map fun pg => pg.NextToken).map (fun x => ⟨arn, x⟩) ∧
        (t.listSubscriptionsLoop fuel ⟨arn, tok⟩ acc c).events.length = pages.length + 1 ∧
        ∃ init input out,
          (t.listSubscriptionsLoop fuel ⟨arn, tok⟩ acc c).events =
            init ++ [Event.ListSubscriptionsByTopic input out (some e)] := by
  intro pages
  induction pages with
  | nil =>
    intro c tok acc fuel hf hfuel
    obtain ⟨f, rfl⟩ : ∃ f, fuel = f + 1 := ⟨fuel - 1, by omega⟩
    obtain ⟨out, hout⟩ := hf
    rcases h : t.client.ListSubscriptionsByTopic c ⟨arn, tok⟩ with ⟨res, c1⟩
    rw [h] at hout
    simp only at hout
    subst hout
    refine ⟨?_, ?_, ?_, [], ⟨arn, tok⟩, out, ?_⟩ <;>
      simp [topic.listSubscriptionsLoop, h, listCalls]
  | cons pg rest ih =>
    intro c tok acc fuel hf hfuel
    obtain ⟨f, rfl⟩ : ∃ f, fuel = f + 1 := ⟨fuel - 1, by omega⟩
    obtain ⟨hpg, next, hnext, hrest⟩ := hf
    rcases h : t.client.ListSubscriptionsByTopic c ⟨arn, tok⟩ with ⟨res, c1⟩
    rw [h] at hpg hrest
    simp only at hpg hrest
    subst hpg
    have hlen : rest.length + 1 ≤ f := by
      simp only [List.length_cons] at hfuel
      omega
    obtain ⟨h1, h2, h3, init, input, out, h4⟩ :=
      ih c1 (some next) (acc ++ pg.Subscriptions) f hrest hlen
    refine ⟨?_, ?_, ?_, Event.ListSubscriptionsByTopic ⟨arn, tok⟩ (some pg) none :: init,
      input, out, ?_⟩
    · simp [topic.listSubscriptionsLoop, h, hnext, h1]
    · simp [topic.listSubscriptionsLoop, h, hnext, h2, listCalls]
    · simp [topic.listSubscriptionsLoop, h, hnext, h3]
    · simp [topic.listSubscriptionsLoop, h, hnext, h4]

/-- C1. Pagination completeness. For every provider that answers a listing request
for the topic as a function `p` of the continuation token, and that, followed from
the empty token, yields `N >= 1` pages of which only the last has no next token,
`listSubscriptions` (given a loop budget of at least `N`) returns, with a nil
error, exactly the concatenation of the `N` pages' entries in page order, makes
exactly `N` calls, all of them `ListSubscriptionsByTopic` calls, sends no token on
the first call and on call `k + 1` the token returned by page `k`. -/
theorem listSubscriptions_pagination {σ : Type} (t : topic σ)
    (p : Option String → ListSubscriptionsByTopicOutput) (N fuel : Nat) (c : σ)
    (hclient : ∀ st tok,
      (t.client.ListSubscriptionsByTopic st ⟨some t.settings.Arn, tok⟩).1 =
        (some (p tok), none))
    (hN : 1 ≤ N)
    (hmid : ∀ k, k + 1 < N → (p (sentToken p none k)).NextToken ≠ none)
    (hlast : (p (sentToken p none (N - 1))).NextToken = none)
    (hfuel : N ≤ fuel) :
    (t.listSubscriptions fuel c).outcome =
        .returned (some ((List.range N).flatMap
          fun k => (p (sentToken p none k)).Subscriptions), none) ∧
      (t.listSubscriptions fuel c).events =
        ((List.range N).map fun k =>
          Event.ListSubscriptionsByTopic ⟨some t.settings.Arn, sentToken p none k⟩
            (some (p (sentToken p none k))) none) ∧
      listCalls (t.listSubscriptions fuel c).events =
        ((List.range N).map fun k => ⟨some t.settings.Arn, sentToken p none k⟩) ∧
      (t.listSubscriptions fuel c).events.length = N ∧
      sentToken p none 0 = none ∧
      ∀ k, sentToken p none (k + 1) = (p (sentToken p none k)).NextToken := by
  obtain ⟨n, rfl⟩ : ∃ n, N = n + 1 := ⟨N - 1, by omega⟩
  have hmain := listSubscriptionsLoop_pages t p (some t.settings.Arn) hclient n none [] c fuel
    (fun k hk => hmid k (by omega)) (by simpa using hlast) hfuel
  refine ⟨?_, hmain.2, ?_, ?_, rfl, fun _ => rfl⟩
  · simpa [topic.listSubscriptions] using hmain.1
  · unfold topic.listSubscriptions
    rw [hmain.2, listCalls_map]
  · unfold topic.listSubscriptions
    rw [hmain.2]
    simp

/-- Two pages are returned concatenated, in order. -/
theorem listSubscriptions_pagination_witness :
    ((⟨⟨"log"⟩, fixedClient none none (fun tok => (some (twoPages tok), none)),
        settingsWithArn "arn:orders"⟩ : topic Unit).listSubscriptions 2 ()).outcome =
      .returned (some [some (subscriptionWithEndpoint (some "queueArnA")),
        some (subscriptionWithEndpoint (some "queueArnB"))], none) :=
  (listSubscriptions_pagination
    ⟨⟨"log"⟩, fixedClient none none (fun tok => (some (twoPages tok), none)),
      settingsWithArn "arn:orders"⟩ twoPages 2 2 () (fun _ _ => rfl) (by decide)
    (by
      intro k hk
      have hk0 : k = 0 := by omega
      subst hk0
      decide)
    (by decide) (by decide)).1

/-- C6. Listing abort on failure. For every provider that serves `k - 1` pages, each
with a next token, and fails the `k`-th page fetch with the error `e`,
`listSubscriptions` (given a loop budget of at least `k`) returns `(nil, e)`, so none
of the accumulated entries, and makes exactly `k` calls, the failing one being the
last. -/
theorem listSubscriptions_abort {σ : Type} (t : topic σ) (e : Error)
    (pages : List ListSubscriptionsByTopicOutput) (c : σ) (fuel : Nat)
    (hfail : FailsAfter t.client (some t.settings.Arn) e pages c none)
    (hfuel : pages.length + 1 ≤ fuel) :
    (t.listSubscriptions fuel c).outcome = .returned (none, some e) ∧
      listCalls (t.listSubscriptions fuel c).events =
        (none :: pages.map fun pg => pg.NextToken).map
          (fun x => ⟨some t.settings.Arn, x⟩) ∧
      (t.listSubscriptions fuel c).events.length = pages.length + 1 ∧
      ∃ init input out,
        (t.listSubscriptions fuel c).events =
          init ++ [Event.ListSubscriptionsByTopic input out (some e)] :=
  listSubscriptionsLoop_fails t (some t.settings.Arn) e pages c none [] fuel hfail hfuel

/-- The entries of the first page are dropped when the second fetch fails. -/
theorem listSubscriptions_abort_witness :
    ((⟨⟨"log"⟩, fixedClient none none failsOnSecond,
        settingsWithArn "arn:orders"⟩ : topic Unit).listSubscriptions 2 ()).outcome =
      .returned (none, some ⟨"throttled"⟩) :=
  (listSubscriptions_abort
    ⟨⟨"log"⟩, fixedClient none none failsOnSecond, settingsWithArn "arn:orders"⟩
    ⟨"throttled"⟩ [⟨[some (subscriptionWithEndpoint (some "queueArnA"))], some "t1"⟩] () 2
    ⟨rfl, "t1", rfl, none, rfl⟩ (by decide)).1

/-! ## The existence check -/

theorem subscribeCalls_append (a b : List Event) :
    subscribeCalls (a ++ b) = subscribeCalls a ++ subscribeCalls b := by
  induction a with
  | nil => rfl
  | cons x a ih => cases x <;> simp [subscribeCalls, ih]

theorem publishCalls_append (a b : List Event) :
    publishCalls (a ++ b) = publishCalls a ++ publishCalls b := by
  induction a with
  | nil => rfl
  | cons x a ih => cases x <;> simp [publishCalls, ih]

theorem logEntries_append (a b : List Event) :
    logEntries (a ++ b) = logEntries a ++ logEntries b := by
  induction a with
  | nil => rfl
  | cons x a ih => cases x <;> simp [logEntries, ih]

/-- The listing calls nothing but `ListSubscriptionsByTopic`. -/
theorem listSubscriptions_only_lists {σ : Type} (t : topic σ) (fuel : Nat) (c : σ) :
    subscribeCalls (t.listSubscriptions fuel c).events = [] ∧
      publishCalls (t.listSubscriptions fuel c).events = [] ∧
      logEntries (t.listSubscriptions fuel c).events = [] :=
  listSubscriptionsLoop_only_lists t fuel _ [] c

/-- The listing loop never returns a list together with an error, nor neither. -/
theorem listSubscriptionsLoop_returned {σ : Type} (t : topic σ) :
    ∀ (fuel : Nat) (input : ListSubscriptionsByTopicInput)
      (acc : List (Option Subscription)) (c : σ)
      (subs : Option (List (Option Subscription))) (err : Option Error),
      (t.listSubscriptionsLoop fuel input acc c).outcome = .returned (subs, err) →
        (subs = none ∧ err ≠ none) ∨ (subs ≠ none ∧ err = none) := by
  intro fuel
  induction fuel with
  | zero => intro input acc c subs err h; simp [topic.listSubscriptionsLoop] at h
  | succ fuel ih =>
    intro input acc c subs err
    rcases h : t.client.ListSubscriptionsByTopic c input with ⟨⟨out, e⟩, c1⟩
    cases e with
    | some e =>
      simp only [topic.listSubscriptionsLoop, h, Outcome.returned.injEq, Prod.mk.injEq]
      rintro ⟨rfl, rfl⟩
      simp
    | none =>
      cases out with
      | none => simp [topic.listSubscriptionsLoop, h]
      | some o =>
        cases hn : o.NextToken with
        | none =>
          simp only [topic.listSubscriptionsLoop, h, hn, Outcome.returned.injEq,
            Prod.mk.injEq]
          rintro ⟨rfl, rfl⟩
          simp
        | some tok =>
          simp only [topic.listSubscriptionsLoop, h, hn]
          exact ih _ _ _ subs err

/-- When the listing loop returns an error, its last call is a
`ListSubscriptionsByTopic` call that returned that error. -/
theorem listSubscriptionsLoop_error_last {σ : Type} (t : topic σ) :
    ∀ (fuel : Nat) (input : ListSubscriptionsByTopicInput)
      (acc : List (Option Subscription)) (c : σ)
      (subs : Option (List (Option Subscription))) (e : Error),
      (t.listSubscriptionsLoop fuel input acc c).outcome = .returned (subs, some e) →
        ∃ init input1 out,
          (t.listSubscriptionsLoop fuel input acc c).events =
            init ++ [Event.ListSubscriptionsByTopic input1 out (some e)] := by
  intro fuel
  induction fuel with
  | zero => intro input acc c subs e h; simp [topic.listSubscriptionsLoop] at h
  | succ fuel ih =>
    intro input acc c subs e
    rcases h : t.client.ListSubscriptionsByTopic c input with ⟨⟨out, e1⟩, c1⟩
    cases e1 with
    | some e1 =>
      simp only [topic.listSubscriptionsLoop, h, Outcome.returned.injEq, Prod.mk.injEq,
        Option.some.injEq]
      rintro ⟨_, rfl⟩
      exact ⟨[], input, out, rfl⟩
    | none =>
      cases out with
      | none => simp [topic.listSubscriptionsLoop, h]
      | some o =>
        cases hn : o.NextToken with
        | none => simp [topic.listSubscriptionsLoop, h, hn]
        | some tok =>
          simp only [topic.listSubscriptionsLoop, h, hn]
          intro hout
          obtain ⟨init, input1, out1, hev⟩ := ih _ _ _ subs e hout
          exact ⟨_ :: init, input1, out1, by rw [hev]; rfl⟩

/-- The loop of the existence check finds a match that no nil precedes. -/
theorem subscriptionExistsLoop_found (queueArn : String) (s : Subscription)
    (post : List (Option Subscription)) (hs : s.Endpoint = some queueArn) :
    ∀ (pre : List (Option Subscription)),
      (∀ x ∈ pre, ∃ s1 e1, x = some s1 ∧ s1.Endpoint = some e1) →
        subscriptionExistsLoop queueArn (pre ++ some s :: post) = .returned (true, none) := by
  intro pre
  induction pre with
  | nil => intro _; simp [subscriptionExistsLoop, hs]
  | cons x pre ih =>
    intro hpre
    obtain ⟨s1, e1, rfl, he1⟩ := hpre x (List.mem_cons_self _ _)
    have hrest := ih fun y hy => hpre y (List.mem_cons_of_mem _ hy)
    by_cases heq : e1 = queueArn
    · simp [subscriptionExistsLoop, he1, heq]
    · simp [subscriptionExistsLoop, he1, heq, hrest]

/-- The loop of the existence check returns `false` exactly on the listings whose
entries are all non-nil subscriptions with a non-nil endpoint other than the
queue's. -/
theorem subscriptionExistsLoop_false_iff (queueArn : String) :
    ∀ (subs : List (Option Subscription)),
      subscriptionExistsLoop queueArn subs = .returned (false, none) ↔
        ∀ x ∈ subs, ∃ s e, x = some s ∧ s.Endpoint = some e ∧ e ≠ queueArn := by
  intro subs
  induction subs with
  | nil => simp [subscriptionExistsLoop]
  | cons x subs ih =>
    cases x with
    | none => simp [subscriptionExistsLoop]
    | some s =>
      cases hs : s.Endpoint with
      | none => simp [subscriptionExistsLoop, hs]
      | some e =>
        by_cases heq : e = queueArn
        · simp [subscriptionExistsLoop, hs, heq]
        · simp [subscriptionExistsLoop, hs, heq, ih]

/-- The loop of the existence check returns on listings without nil entries and
nil endpoints. -/
theorem subscriptionExistsLoop_returns (queueArn : String) :
    ∀ (subs : List (Option Subscription)),
      (∀ x ∈ subs, ∃ s e, x = some s ∧ s.Endpoint = some e) →
        ∃ b, subscriptionExistsLoop queueArn subs = .returned (b, none) := by
  intro subs
  induction subs with
  | nil => intro _; exact ⟨false, rfl⟩
  | cons x subs ih =>
    intro h
    obtain ⟨s, e, rfl, he⟩ := h x (List.mem_cons_self _ _)
    obtain ⟨b, hb⟩ := ih fun y hy => h y (List.mem_cons_of_mem _ hy)
    by_cases heq : e = queueArn
    · exact ⟨true, by simp [subscriptionExistsLoop, he, heq]⟩
    · exact ⟨b, by simp [subscriptionExistsLoop, he, heq, hb]⟩

/-- The loop of the existence check panics on a nil endpoint that no match
precedes. -/
theorem subscriptionExistsLoop_panics (queueArn : String) (s : Subscription)
    (post : List (Option Subscription)) (hs : s.Endpoint = none) :
    ∀ (pre : List (Option Subscription)),
      (∀ s1, some s1 ∈ pre → s1.Endpoint ≠ some queueArn) →
        subscriptionExistsLoop queueArn (pre ++ some s :: post) =
          .panicked .nilPointerDereference := by
  intro pre
  induction pre with
  | nil => intro _; simp [subscriptionExistsLoop, hs]
  | cons x pre ih =>
    intro hpre
    have hrest := ih fun y hy => hpre y (List.mem_cons_of_mem _ hy)
    cases x with
    | none => simp [subscriptionExistsLoop]
    | some s1 =>
      have h1 := hpre s1 (List.mem_cons_self _ _)
      cases he : s1.Endpoint with
      | none => simp [subscriptionExistsLoop, he]
      | some e =>
        have hne : e ≠ queueArn := by
          intro h
          exact h1 (by rw [he, h])
        simp [subscriptionExistsLoop, he, hne, hrest]

/-- The existence check after a successful listing is the loop over the listing. -/
theorem subscriptionExists_of_listing {σ : Type} (t : topic σ) (fuel : Nat)
    (queueArn : String) (c : σ) (subs : List (Option Subscription))
    (hlist : (t.listSubscriptions fuel c).outcome = .returned (some subs, none)) :
    t.subscriptionExists fuel queueArn c =
      ⟨subscriptionExistsLoop queueArn subs, (t.listSubscriptions fuel c).client,
        (t.listSubscriptions fuel c).events⟩ := by
  simp [topic.subscriptionExists, hlist]

/-! ## SubscribeSqs -/

/-- The loop of the existence check never returns an error. -/
theorem subscriptionExistsLoop_err (queueArn : String) :
    ∀ (subs : List (Option Subscription)) (b : Bool) (err : Option Error),
      subscriptionExistsLoop queueArn subs = .returned (b, err) → err = none := by
  intro subs
  induction subs with
  | nil =>
    intro b err h
    simp only [subscriptionExistsLoop, Outcome.returned.injEq, Prod.mk.injEq] at h
    exact h.2.symm
  | cons x subs ih =>
    intro b err
    cases x with
    | none => simp [subscriptionExistsLoop]
    | some s =>
      cases hs : s.Endpoint with
      | none => simp [subscriptionExistsLoop, hs]
      | some e =>
        by_cases heq : e = queueArn
        · simp only [subscriptionExistsLoop, hs, heq, if_true, Outcome.returned.injEq,
            Prod.mk.injEq]
          intro h
          exact h.2.symm
        · simp only [subscriptionExistsLoop, hs, heq, if_false]
          exact ih b err

/-- The existence check makes the calls of the listing and no other. -/
theorem subscriptionExists_events {σ : Type} (t : topic σ) (fuel : Nat) (queueArn : String)
    (c : σ) :
    (t.subscriptionExists fuel queueArn c).events = (t.listSubscriptions fuel c).events ∧
      (t.subscriptionExists fuel queueArn c).client = (t.listSubscriptions fuel c).client := by
  unfold topic.subscriptionExists
  cases h : (t.listSubscriptions fuel c).outcome with
  | returned a =>
    obtain ⟨subs, err⟩ := a
    cases err <;> simp [h]
  | panicked p => simp [h]
  | outOfFuel => simp [h]

/-- The run of `SubscribeSqs` when the existence check finds the queue. -/
theorem SubscribeSqs_found_run {σ : Type} (t : topic σ) (fuel : Nat) (queueArn : String)
    (c : σ) (hex : (t.subscriptionExists fuel queueArn c).outcome = .returned (true, none)) :
    t.SubscribeSqs fuel queueArn c =
      ⟨.returned none, (t.subscriptionExists fuel queueArn c).client,
        (t.subscriptionExists fuel queueArn c).events ++ [Event.Log t.logger
          ⟨.Info, [("topicArn", t.settings.Arn), ("queueArn", queueArn)], none,
            "already subscribed to sns topic"⟩]⟩ := by
  simp [topic.SubscribeSqs, hex, subscribeFields]

/-- The run of `SubscribeSqs` when the existence check does not find the queue. -/
theorem SubscribeSqs_absent_run {σ : Type} (t : topic σ) (fuel : Nat) (queueArn : String)
    (c : σ) (hex : (t.subscriptionExists fuel queueArn c).outcome = .returned (false, none)) :
    t.SubscribeSqs fuel queueArn c =
      ⟨.returned (t.client.Subscribe (t.subscriptionExists fuel queueArn c).client
          ⟨some t.settings.Arn, some queueArn, some "sqs"⟩).1,
        (t.client.Subscribe (t.subscriptionExists fuel queueArn c).client
          ⟨some t.settings.Arn, some queueArn, some "sqs"⟩).2,
        (t.subscriptionExists fuel queueArn c).events ++
          [Event.Subscribe ⟨some t.settings.Arn, some queueArn, some "sqs"⟩
            (t.client.Subscribe (t.subscriptionExists fuel queueArn c).client
              ⟨some t.settings.Arn, some queueArn, some "sqs"⟩).1] ++
          (match (t.client.Subscribe (t.subscriptionExists fuel queueArn c).client
              ⟨some t.settings.Arn, some queueArn, some "sqs"⟩).1 with
            | some e => [Event.Log t.logger
                ⟨.Error, [("topicArn", t.settings.Arn), ("queueArn", queueArn)], some e,
                  "could not subscribe for sqs queue"⟩]
            | none => []) ++
          [Event.Log t.logger
            ⟨.Info, [("topicArn", t.settings.Arn), ("queueArn", queueArn)], none,
              "successful subscribed to sns topic"⟩]⟩ := by
  simp [topic.SubscribeSqs, hex, subscribeFields]

/-- The run of `SubscribeSqs` when the existence check returns an error. -/
theorem SubscribeSqs_error_run {σ : Type} (t : topic σ) (fuel : Nat) (queueArn : String)
    (c : σ) (b : Bool) (e : Error)
    (hex : (t.subscriptionExists fuel queueArn c).outcome = .returned (b, some e)) :
    t.SubscribeSqs fuel queueArn c =
      ⟨.returned (some e), (t.subscriptionExists fuel queueArn c).client,
        (t.subscriptionExists fuel queueArn c).events ++ [Event.Log t.logger
          ⟨.Error, [("topicArn", t.settings.Arn), ("queueArn", queueArn)], some e,
            "can not check if subscription already exists"⟩]⟩ := by
  simp [topic.SubscribeSqs, hex, subscribeFields]

/-- The existence check returns `(false, nil)` only after a successful listing over
which its loop returns `false`. -/
theorem subscriptionExists_false {σ : Type} (t : topic σ) (fuel : Nat) (queueArn : String)
    (c : σ) (hex : (t.subscriptionExists fuel queueArn c).outcome = .returned (false, none)) :
    ∃ subs, (t.listSubscriptions fuel c).outcome = .returned (some subs, none) ∧
      subscriptionExistsLoop queueArn subs = .returned (false, none) := by
  cases h : (t.listSubscriptions fuel c).outcome with
  | returned a =>
    obtain ⟨subs, err⟩ := a
    cases err with
    | some e => simp [topic.subscriptionExists, h] at hex
    | none =>
      cases subs with
      | none =>
        have := listSubscriptionsLoop_returned t fuel _ [] c none none h
        simp at this
      | some l => exact ⟨l, rfl, by simpa [topic.subscriptionExists, h] using hex⟩
  | panicked p => simp [topic.subscriptionExists, h] at hex
  | outOfFuel => simp [topic.subscriptionExists, h] at hex

/-- C2, amended. Already-subscribed path: for every queue ARN and every successful
listing in which some subscription's endpoint is string-equal to the queue ARN, and
in which no entry before that subscription is nil or has a nil endpoint,
`SubscribeSqs` returns nil, issues no `Subscribe` (and no `Publish`) call, and emits
exactly one log entry, the informational "already subscribed to sns topic". -/
theorem SubscribeSqs_already_subscribed {σ : Type} (t : topic σ) (fuel : Nat)
    (queueArn : String) (c : σ) (pre post : List (Option Subscription)) (s : Subscription)
    (hlist : (t.listSubscriptions fuel c).outcome =
      .returned (some (pre ++ some s :: post), none))
    (hs : s.Endpoint = some queueArn)
    (hpre : ∀ x ∈ pre, ∃ s1 e1, x = some s1 ∧ s1.Endpoint = some e1) :
    (t.SubscribeSqs fuel queueArn c).outcome = .returned none ∧
      subscribeCalls (t.SubscribeSqs fuel queueArn c).events = [] ∧
      publishCalls (t.SubscribeSqs fuel queueArn c).events = [] ∧
      logEntries (t.SubscribeSqs fuel queueArn c).events =
        [⟨.Info, [("topicArn", t.settings.Arn), ("queueArn", queueArn)], none,
          "already subscribed to sns topic"⟩] ∧
      (t.SubscribeSqs fuel queueArn c).client = (t.listSubscriptions fuel c).client := by
  have hex := subscriptionExists_of_listing t fuel queueArn c _ hlist
  have hfound := subscriptionExistsLoop_found queueArn s post hs pre hpre
  obtain ⟨h1, h2, h3⟩ := listSubscriptions_only_lists t fuel c
  simp [topic.SubscribeSqs, hex, hfound, subscribeCalls_append, publishCalls_append,
    logEntries_append, h1, h2, h3, subscribeCalls, publishCalls, logEntries, subscribeFields]

/-- A queue that is listed second is found and nothing is created. -/
theorem SubscribeSqs_already_subscribed_witness :
    ((⟨⟨"log"⟩, stubClient, settingsWithArn "arn:orders"⟩ :
        topic (List (Option Subscription))).SubscribeSqs 1 "queueArn"
        [some (subscriptionWithEndpoint (some "other")),
          some (subscriptionWithEndpoint (some "queueArn"))]).outcome = .returned none :=
  (SubscribeSqs_already_subscribed ⟨⟨"log"⟩, stubClient, settingsWithArn "arn:orders"⟩ 1
    "queueArn" [some (subscriptionWithEndpoint (some "other")),
      some (subscriptionWithEndpoint (some "queueArn"))]
    [some (subscriptionWithEndpoint (some "other"))] []
    (subscriptionWithEndpoint (some "queueArn")) rfl rfl
    (by
      intro x hx
      rw [List.mem_singleton] at hx
      exact ⟨_, _, hx, rfl⟩)).1

/-- C2 as stated fails: the listing succeeds and holds a subscription
whose endpoint equals the queue ARN, but a subscription with a nil endpoint is listed
before it, and `SubscribeSqs` panics instead of returning nil; it emits no log
entry. -/
theorem SubscribeSqs_already_subscribed_counterexample :
    ((⟨⟨"log"⟩, stubClient, settingsWithArn "arn:orders"⟩ :
        topic (List (Option Subscription))).listSubscriptions 1
        [some (subscriptionWithEndpoint none),
          some (subscriptionWithEndpoint (some "queueArn"))]).outcome =
        .returned (some [some (subscriptionWithEndpoint none),
          some (subscriptionWithEndpoint (some "queueArn"))], none) ∧
      (subscriptionWithEndpoint (some "queueArn")).Endpoint = some "queueArn" ∧
      ((⟨⟨"log"⟩, stubClient, settingsWithArn "arn:orders"⟩ :
        topic (List (Option Subscription))).SubscribeSqs 1 "queueArn"
        [some (subscriptionWithEndpoint none),
          some (subscriptionWithEndpoint (some "queueArn"))]).outcome =
        .panicked .nilPointerDereference ∧
      logEntries ((⟨⟨"log"⟩, stubClient, settingsWithArn "arn:orders"⟩ :
        topic (List (Option Subscription))).SubscribeSqs 1 "queueArn"
        [some (subscriptionWithEndpoint none),
          some (subscriptionWithEndpoint (some "queueArn"))]).events = [] :=
  ⟨rfl, rfl, rfl, rfl⟩

/-- C4, amended. Endpoint matching is exact string equality: for every queue ARN
and every successful listing whose entries are all non-nil subscriptions with a
non-nil endpoint that is not string-equal to the queue ARN, `SubscribeSqs` is not
treated as already subscribed and issues exactly one `Subscribe` call, whose
`TopicArn` is the ARN of the settings, whose `Endpoint` is the queue ARN and whose
`Protocol` is "sqs"; it returns what that call returned. -/
theorem SubscribeSqs_exact_match {σ : Type} (t : topic σ) (fuel : Nat)
    (queueArn : String) (c : σ) (subs : List (Option Subscription))
    (hlist : (t.listSubscriptions fuel c).outcome = .returned (some subs, none))
    (hne : ∀ x ∈ subs, ∃ s e, x = some s ∧ s.Endpoint = some e ∧ e ≠ queueArn) :
    subscribeCalls (t.SubscribeSqs fuel queueArn c).events =
        [⟨some t.settings.Arn, some queueArn, some "sqs"⟩] ∧
      (t.SubscribeSqs fuel queueArn c).outcome =
        .returned (t.client.Subscribe (t.listSubscriptions fuel c).client
          ⟨some t.settings.Arn, some queueArn, some "sqs"⟩).1 ∧
      (∀ entry ∈ logEntries (t.SubscribeSqs fuel queueArn c).events,
        entry.msg ≠ "already subscribed to sns topic") ∧
      (t.SubscribeSqs fuel queueArn c).client =
        (t.client.Subscribe (t.listSubscriptions fuel c).client
          ⟨some t.settings.Arn, some queueArn, some "sqs"⟩).2 := by
  have hex := subscriptionExists_of_listing t fuel queueArn c _ hlist
  have hfalse := (subscriptionExistsLoop_false_iff queueArn subs).mpr hne
  obtain ⟨h1, h2, h3⟩ := listSubscriptions_only_lists t fuel c
  cases herr : (t.client.Subscribe (t.listSubscriptions fuel c).client
      ⟨some t.settings.Arn, some queueArn, some "sqs"⟩).1 <;>
    simp [topic.SubscribeSqs, hex, hfalse, herr, subscribeCalls_append, logEntries_append,
      h1, h3, subscribeCalls, logEntries]

/-- With only `queueArnB` listed, subscribing `queueArnA` creates a subscription. -/
theorem SubscribeSqs_exact_match_witness :
    subscribeCalls ((⟨⟨"log"⟩, stubClient, settingsWithArn "arn:orders"⟩ :
        topic (List (Option Subscription))).SubscribeSqs 1 "queueArnA"
        [some (subscriptionWithEndpoint (some "queueArnB"))]).events =
      [⟨some "arn:orders", some "queueArnA", some "sqs"⟩] :=
  (SubscribeSqs_exact_match ⟨⟨"log"⟩, stubClient, settingsWithArn "arn:orders"⟩ 1
    "queueArnA" [some (subscriptionWithEndpoint (some "queueArnB"))]
    [some (subscriptionWithEndpoint (some "queueArnB"))] rfl
    (by
      intro x hx
      rw [List.mem_singleton] at hx
      exact ⟨_, _, hx, rfl, by decide⟩)).1

/-- C4 as stated fails: the listing succeeds and no subscription in it has
an endpoint equal to the queue ARN (the only one has a nil endpoint), yet
`SubscribeSqs` issues no `Subscribe` call: it panics. -/
theorem SubscribeSqs_exact_match_counterexample :
    ((⟨⟨"log"⟩, stubClient, settingsWithArn "arn:orders"⟩ :
        topic (List (Option Subscription))).listSubscriptions 1
        [some (subscriptionWithEndpoint none)]).outcome =
        .returned (some [some (subscriptionWithEndpoint none)], none) ∧
      (subscriptionWithEndpoint none).Endpoint ≠ some "queueArnA" ∧
      subscribeCalls ((⟨⟨"log"⟩, stubClient, settingsWithArn "arn:orders"⟩ :
        topic (List (Option Subscription))).SubscribeSqs 1 "queueArnA"
        [some (subscriptionWithEndpoint none)]).events = [] ∧
      ((⟨⟨"log"⟩, stubClient, settingsWithArn "arn:orders"⟩ :
        topic (List (Option Subscription))).SubscribeSqs 1 "queueArnA"
        [some (subscriptionWithEndpoint none)]).outcome =
        .panicked .nilPointerDereference :=
  ⟨rfl, by decide, rfl, rfl⟩

/-- C9. Unconditional success log: whenever `SubscribeSqs` reaches the `Subscribe`
call (the existence check returned `false` with a nil error, which happens only
after a successful listing without a matching endpoint), the informational
"successful subscribed to sns topic" entry is emitted, as the last event, whatever
the `Subscribe` call returned; when `Subscribe` fails with `e` the log sequence is
exactly the error entry "could not subscribe for sqs queue" followed by that
"successful" entry, and `e` is returned; when it succeeds the "successful" entry is
the only one. -/
theorem SubscribeSqs_success_log {σ : Type} (t : topic σ) (fuel : Nat) (queueArn : String)
    (c : σ)
    (hreach : (t.subscriptionExists fuel queueArn c).outcome = .returned (false, none)) :
    (t.SubscribeSqs fuel queueArn c).outcome =
        .returned (t.client.Subscribe (t.listSubscriptions fuel c).client
          ⟨some t.settings.Arn, some queueArn, some "sqs"⟩).1 ∧
      (∃ init, (t.SubscribeSqs fuel queueArn c).events = init ++ [Event.Log t.logger
        ⟨.Info, [("topicArn", t.settings.Arn), ("queueArn", queueArn)], none,
          "successful subscribed to sns topic"⟩]) ∧
      ((t.client.Subscribe (t.listSubscriptions fuel c).client
          ⟨some t.settings.Arn, some queueArn, some "sqs"⟩).1 = none →
        logEntries (t.SubscribeSqs fuel queueArn c).events =
          [⟨.Info, [("topicArn", t.settings.Arn), ("queueArn", queueArn)], none,
            "successful subscribed to sns topic"⟩]) ∧
      (∀ e, (t.client.Subscribe (t.listSubscriptions fuel c).client
          ⟨some t.settings.Arn, some queueArn, some "sqs"⟩).1 = some e →
        logEntries (t.SubscribeSqs fuel queueArn c).events =
            [⟨.Error, [("topicArn", t.settings.Arn), ("queueArn", queueArn)], some e,
                "could not subscribe for sqs queue"⟩,
              ⟨.Info, [("topicArn", t.settings.Arn), ("queueArn", queueArn)], none,
                "successful subscribed to sns topic"⟩] ∧
          (t.SubscribeSqs fuel queueArn c).outcome = .returned (some e)) ∧
      ∃ subs, (t.listSubscriptions fuel c).outcome = .returned (some subs, none) ∧
        ∀ s1, some s1 ∈ subs → s1.Endpoint ≠ some queueArn := by
  obtain ⟨hev, hcl⟩ := subscriptionExists_events t fuel queueArn c
  obtain ⟨_, _, h3⟩ := listSubscriptions_only_lists t fuel c
  have hrun := SubscribeSqs_absent_run t fuel queueArn c hreach
  rw [hcl, hev] at hrun
  refine ⟨by rw [hrun], ⟨_, by rw [hrun]⟩, ?_, ?_, ?_⟩
  · intro hnone
    rw [hrun]
    simp [hnone, logEntries_append, h3, logEntries]
  · intro e hsome
    rw [hrun]
    simp [hsome, logEntries_append, h3, logEntries]
  · obtain ⟨subs, hlist, hloop⟩ := subscriptionExists_false t fuel queueArn c hreach
    refine ⟨subs, hlist, ?_⟩
    intro s1 hs1 hend
    obtain ⟨s2, e2, hx, he2, hne⟩ :=
      (subscriptionExistsLoop_false_iff queueArn subs).mp hloop _ hs1
    cases hx
    rw [he2] at hend
    exact hne (Option.some.inj hend)

/-- A failing `Subscribe` is logged as an error and then as a success. -/
theorem SubscribeSqs_success_log_witness :
    logEntries ((⟨⟨"log"⟩, fixedClient none (some ⟨"denied"⟩) (fun _ => (some ⟨[], none⟩, none)),
        settingsWithArn "arn:orders"⟩ : topic Unit).SubscribeSqs 1 "queueArn" ()).events =
      [⟨.Error, [("topicArn", "arn:orders"), ("queueArn", "queueArn")], some ⟨"denied"⟩,
          "could not subscribe for sqs queue"⟩,
        ⟨.Info, [("topicArn", "arn:orders"), ("queueArn", "queueArn")], none,
          "successful subscribed to sns topic"⟩] :=
  ((SubscribeSqs_success_log
    ⟨⟨"log"⟩, fixedClient none (some ⟨"denied"⟩) (fun _ => (some ⟨[], none⟩, none)),
      settingsWithArn "arn:orders"⟩ 1 "queueArn" () rfl).2.2.2.1 ⟨"denied"⟩ rfl).1

/-- C10. Nil-endpoint safety of the existence check: after a successful listing
whose entries are all non-nil subscriptions with a non-nil endpoint,
`subscriptionExists` returns a result with a nil error, without a nil dereference;
after a successful listing that contains a subscription with a nil endpoint that
is not preceded by a subscription whose endpoint equals the queue ARN,
`subscriptionExists`, and hence `SubscribeSqs`, ends in a nil-pointer panic instead
of returning. -/
theorem subscriptionExists_nil_endpoint {σ : Type} (t : topic σ) (fuel : Nat)
    (queueArn : String) (c : σ) :
    (∀ subs, (t.listSubscriptions fuel c).outcome = .returned (some subs, none) →
        (∀ x ∈ subs, ∃ s e, x = some s ∧ s.Endpoint = some e) →
        ∃ b, (t.subscriptionExists fuel queueArn c).outcome = .returned (b, none)) ∧
      (∀ pre s post,
        (t.listSubscriptions fuel c).outcome =
          .returned (some (pre ++ some s :: post), none) →
        s.Endpoint = none →
        (∀ s1, some s1 ∈ pre → s1.Endpoint ≠ some queueArn) →
        (t.subscriptionExists fuel queueArn c).outcome = .panicked .nilPointerDereference ∧
          (t.SubscribeSqs fuel queueArn c).outcome = .panicked .nilPointerDereference) := by
  constructor
  · intro subs hlist hall
    obtain ⟨b, hb⟩ := subscriptionExistsLoop_returns queueArn subs hall
    exact ⟨b, by rw [subscriptionExists_of_listing t fuel queueArn c subs hlist, hb]⟩
  · intro pre s post hlist hs hpre
    have hp := subscriptionExistsLoop_panics queueArn s post hs pre hpre
    have hex := subscriptionExists_of_listing t fuel queueArn c _ hlist
    constructor
    · rw [hex, hp]
    · simp [topic.SubscribeSqs, hex, hp]

/-- A listing without nil endpoints is checked, one with a nil endpoint panics. -/
theorem subscriptionExists_nil_endpoint_witness :
    (∃ b, ((⟨⟨"log"⟩, stubClient, settingsWithArn "arn:orders"⟩ :
        topic (List (Option Subscription))).subscriptionExists 1 "queueArn"
        [some (subscriptionWithEndpoint (some "other"))]).outcome = .returned (b, none)) ∧
      ((⟨⟨"log"⟩, stubClient, settingsWithArn "arn:orders"⟩ :
        topic (List (Option Subscription))).SubscribeSqs 1 "queueArn"
        [some (subscriptionWithEndpoint (some "other")),
          some (subscriptionWithEndpoint none)]).outcome = .panicked .nilPointerDereference :=
  ⟨(subscriptionExists_nil_endpoint ⟨⟨"log"⟩, stubClient, settingsWithArn "arn:orders"⟩ 1
      "queueArn" [some (subscriptionWithEndpoint (some "other"))]).1
      [some (subscriptionWithEndpoint (some "other"))] rfl
      (by
        intro x hx
        rw [List.mem_singleton] at hx
        exact ⟨_, _, hx, rfl⟩),
    ((subscriptionExists_nil_endpoint ⟨⟨"log"⟩, stubClient, settingsWithArn "arn:orders"⟩ 1
      "queueArn" [some (subscriptionWithEndpoint (some "other")),
        some (subscriptionWithEndpoint none)]).2
      [some (subscriptionWithEndpoint (some "other"))] (subscriptionWithEndpoint none) []
      rfl rfl
      (by
        intro s1 hs1
        rw [List.mem_singleton] at hs1
        cases hs1
        decide)).2⟩

/-- C7, amended. `SubscribeSqs` surfaces every operational error: it returns the
non-nil error `e` if and only if either the subscription listing fails with `e`, or
the listing succeeds, every listed entry is a non-nil subscription with a non-nil
endpoint that is not string-equal to the queue ARN, and the provider's `Subscribe`,
called in the state the listing left with the ARN of the settings, the queue ARN
and the protocol "sqs", fails with `e`.  When the listing fails with `e`, the
failing `ListSubscriptionsByTopic` call that returned `e` is the last call of the
listing, no `Subscribe` call is issued, and exactly one log entry is emitted,
error-level, carrying `topicArn` and `queueArn`.  In the second case the run issues
exactly that one `Subscribe` call, which returned `e`. -/
theorem SubscribeSqs_error_iff {σ : Type} (t : topic σ) (fuel : Nat) (queueArn : String)
    (c : σ) (e : Error) :
    ((t.SubscribeSqs fuel queueArn c).outcome = .returned (some e) ↔
        (∃ subs, (t.listSubscriptions fuel c).outcome = .returned (subs, some e)) ∨
          ∃ subs, (t.listSubscriptions fuel c).outcome = .returned (some subs, none) ∧
            (∀ x ∈ subs, ∃ s1 e1, x = some s1 ∧ s1.Endpoint = some e1 ∧ e1 ≠ queueArn) ∧
            (t.client.Subscribe (t.listSubscriptions fuel c).client
              ⟨some t.settings.Arn, some queueArn, some "sqs"⟩).1 = some e) ∧
      (∀ subs, (t.listSubscriptions fuel c).outcome = .returned (subs, some e) →
        subscribeCalls (t.SubscribeSqs fuel queueArn c).events = [] ∧
          logEntries (t.SubscribeSqs fuel queueArn c).events =
            [⟨.Error, [("topicArn", t.settings.Arn), ("queueArn", queueArn)], some e,
              "can not check if subscription already exists"⟩] ∧
          ∃ init input out, (t.listSubscriptions fuel c).events =
            init ++ [Event.ListSubscriptionsByTopic input out (some e)]) ∧
      ∀ subs, (t.listSubscriptions fuel c).outcome = .returned (some subs, none) →
        (∀ x ∈ subs, ∃ s1 e1, x = some s1 ∧ s1.Endpoint = some e1 ∧ e1 ≠ queueArn) →
        (t.client.Subscribe (t.listSubscriptions fuel c).client
          ⟨some t.settings.Arn, some queueArn, some "sqs"⟩).1 = some e →
        subscribeCalls (t.SubscribeSqs fuel queueArn c).events =
            [⟨some t.settings.Arn, some queueArn, some "sqs"⟩] ∧
          Event.Subscribe ⟨some t.settings.Arn, some queueArn, some "sqs"⟩ (some e) ∈
            (t.SubscribeSqs fuel queueArn c).events := by
  obtain ⟨hev, hcl⟩ := subscriptionExists_events t fuel queueArn c
  obtain ⟨h1, _, h3⟩ := listSubscriptions_only_lists t fuel c
  have hfail : ∀ subs, (t.listSubscriptions fuel c).outcome = .returned (subs, some e) →
      t.SubscribeSqs fuel queueArn c =
        ⟨.returned (some e), (t.listSubscriptions fuel c).client,
          (t.listSubscriptions fuel c).events ++ [Event.Log t.logger
            ⟨.Error, [("topicArn", t.settings.Arn), ("queueArn", queueArn)], some e,
              "can not check if subscription already exists"⟩]⟩ := by
    intro subs hl
    have hex : (t.subscriptionExists fuel queueArn c).outcome = .returned (false, some e) := by
      simp [topic.subscriptionExists, hl]
    rw [SubscribeSqs_error_run t fuel queueArn c false e hex, hev, hcl]
  have habsent : ∀ subs, (t.listSubscriptions fuel c).outcome = .returned (some subs, none) →
      (∀ x ∈ subs, ∃ s1 e1, x = some s1 ∧ s1.Endpoint = some e1 ∧ e1 ≠ queueArn) →
      (t.client.Subscribe (t.listSubscriptions fuel c).client
        ⟨some t.settings.Arn, some queueArn, some "sqs"⟩).1 = some e →
      t.SubscribeSqs fuel queueArn c =
        ⟨.returned (some e),
          (t.client.Subscribe (t.listSubscriptions fuel c).client
            ⟨some t.settings.Arn, some queueArn, some "sqs"⟩).2,
          (t.listSubscriptions fuel c).events ++
            [Event.Subscribe ⟨some t.settings.Arn, some queueArn, some "sqs"⟩ (some e)] ++
            [Event.Log t.logger
              ⟨.Error, [("topicArn", t.settings.Arn), ("queueArn", queueArn)], some e,
                "could not subscribe for sqs queue"⟩] ++
            [Event.Log t.logger
              ⟨.Info, [("topicArn", t.settings.Arn), ("queueArn", queueArn)], none,
                "successful subscribed to sns topic"⟩]⟩ := by
    intro subs hl hne herr
    have hreach : (t.subscriptionExists fuel queueArn c).outcome = .returned (false, none) := by
      rw [subscriptionExists_of_listing t fuel queueArn c subs hl]
      exact (subscriptionExistsLoop_false_iff queueArn subs).mpr hne
    have hrun := SubscribeSqs_absent_run t fuel queueArn c hreach
    rw [hcl, hev, herr] at hrun
    exact hrun
  refine ⟨⟨?_, ?_⟩, ?_, ?_⟩
  · intro hout
    cases hl : (t.listSubscriptions fuel c).outcome with
    | returned a =>
      obtain ⟨subs, err⟩ := a
      cases err with
      | some e1 =>
        have hex : (t.subscriptionExists fuel queueArn c).outcome =
            .returned (false, some e1) := by
          simp [topic.subscriptionExists, hl]
        rw [SubscribeSqs_error_run t fuel queueArn c false e1 hex] at hout
        simp only [Outcome.returned.injEq, Option.some.injEq] at hout
        subst hout
        exact Or.inl ⟨subs, rfl⟩
      | none =>
        cases subs with
        | none =>
          have := listSubscriptionsLoop_returned t fuel _ [] c none none hl
          simp at this
        | some l =>
          have hex := subscriptionExists_of_listing t fuel queueArn c l hl
          cases hloop : subscriptionExistsLoop queueArn l with
          | returned a =>
            obtain ⟨b, err2⟩ := a
            have herr2 := subscriptionExistsLoop_err queueArn l b err2 hloop
            subst herr2
            cases b with
            | true =>
              have hfound : (t.subscriptionExists fuel queueArn c).outcome =
                  .returned (true, none) := by rw [hex, hloop]
              rw [SubscribeSqs_found_run t fuel queueArn c hfound] at hout
              simp at hout
            | false =>
              have hreach : (t.subscriptionExists fuel queueArn c).outcome =
                  .returned (false, none) := by rw [hex, hloop]
              have hrun := SubscribeSqs_absent_run t fuel queueArn c hreach
              rw [hrun, hcl] at hout
              simp only [Outcome.returned.injEq] at hout
              exact Or.inr ⟨l, rfl,
                (subscriptionExistsLoop_false_iff queueArn l).mp hloop, hout⟩
          | panicked p => simp [topic.SubscribeSqs, hex, hloop] at hout
          | outOfFuel => simp [topic.SubscribeSqs, hex, hloop] at hout
    | panicked p => simp [topic.SubscribeSqs, topic.subscriptionExists, hl] at hout
    | outOfFuel => simp [topic.SubscribeSqs, topic.subscriptionExists, hl] at hout
  · rintro (⟨subs, hl⟩ | ⟨subs, hl, hne, herr⟩)
    · rw [hfail subs hl]
    · rw [habsent subs hl hne herr]
  · intro subs hl
    rw [hfail subs hl]
    refine ⟨?_, ?_, ?_⟩
    · simp [subscribeCalls_append, h1, subscribeCalls]
    · simp [logEntries_append, h3, logEntries]
    · exact listSubscriptionsLoop_error_last t fuel _ [] c subs e hl
  · intro subs hl hne herr
    rw [habsent subs hl hne herr]
    constructor
    · simp [subscribeCalls_append, h1, subscribeCalls]
    · simp

/-- A failing `Subscribe` after a listing without the queue is returned as the
error of `SubscribeSqs`, and so is a failing listing. -/
theorem SubscribeSqs_error_iff_witness :
    ((⟨⟨"log"⟩, fixedClient none (some ⟨"denied"⟩)
          (fun _ => (some ⟨[some (subscriptionWithEndpoint (some "other"))], none⟩, none)),
        settingsWithArn "arn:orders"⟩ : topic Unit).SubscribeSqs 1 "queueArn" ()).outcome =
        .returned (some ⟨"denied"⟩) ∧
      ((⟨⟨"log"⟩, fixedClient none none failsOnSecond, settingsWithArn "arn:orders"⟩ :
        topic Unit).SubscribeSqs 2 "queueArn" ()).outcome = .returned (some ⟨"throttled"⟩) :=
  ⟨(SubscribeSqs_error_iff
      ⟨⟨"log"⟩, fixedClient none (some ⟨"denied"⟩)
        (fun _ => (some ⟨[some (subscriptionWithEndpoint (some "other"))], none⟩, none)),
        settingsWithArn "arn:orders"⟩ 1 "queueArn" () ⟨"denied"⟩).1.mpr
      (Or.inr ⟨[some (subscriptionWithEndpoint (some "other"))], rfl,
        (by
          intro x hx
          rw [List.mem_singleton] at hx
          exact ⟨_, _, hx, rfl, by decide⟩),
        rfl⟩),
    (SubscribeSqs_error_iff
      ⟨⟨"log"⟩, fixedClient none none failsOnSecond, settingsWithArn "arn:orders"⟩ 2
      "queueArn" () ⟨"throttled"⟩).1.mpr (Or.inl ⟨none, rfl⟩)⟩

/-- C7 as stated fails: the listing succeeds, no subscription in it has an
endpoint equal to the queue ARN (the only one has a nil endpoint) and the
provider's `Subscribe` fails, yet `SubscribeSqs` returns no error: it panics
before any `Subscribe` call. -/
theorem SubscribeSqs_error_iff_counterexample :
    ((⟨⟨"log"⟩, fixedClient none (some ⟨"denied"⟩)
          (fun _ => (some ⟨[some (subscriptionWithEndpoint none)], none⟩, none)),
        settingsWithArn "arn:orders"⟩ : topic Unit).listSubscriptions 1 ()).outcome =
        .returned (some [some (subscriptionWithEndpoint none)], none) ∧
      (subscriptionWithEndpoint none).Endpoint ≠ some "queueArn" ∧
      ((fixedClient none (some ⟨"denied"⟩)
          (fun _ => (some ⟨[some (subscriptionWithEndpoint none)], none⟩, none))).Subscribe ()
          ⟨some "arn:orders", some "queueArn", some "sqs"⟩).1 = some ⟨"denied"⟩ ∧
      ((⟨⟨"log"⟩, fixedClient none (some ⟨"denied"⟩)
          (fun _ => (some ⟨[some (subscriptionWithEndpoint none)], none⟩, none)),
        settingsWithArn "arn:orders"⟩ : topic Unit).SubscribeSqs 1 "queueArn" ()).outcome =
        .panicked .nilPointerDereference ∧
      subscribeCalls ((⟨⟨"log"⟩, fixedClient none (some ⟨"denied"⟩)
          (fun _ => (some ⟨[some (subscriptionWithEndpoint none)], none⟩, none)),
        settingsWithArn "arn:orders"⟩ : topic Unit).SubscribeSqs 1 "queueArn" ()).events = [] :=
  ⟨rfl, by decide, rfl, rfl, rfl⟩

/-- C3, amended. Idempotence: against a provider whose listing for the topic
initially succeeds and holds only non-nil subscriptions with a non-nil endpoint
other than `e`, whose `Subscribe` then succeeds, and whose listing afterwards
succeeds and holds a subscription with endpoint `e` that no nil entry and no
subscription with a nil endpoint precedes, two consecutive calls `SubscribeSqs(e)`
both return nil and together issue exactly one `Subscribe` call; the second call
issues none. -/
theorem SubscribeSqs_idempotent {σ : Type} (t : topic σ) (fuel : Nat) (e : String) (c : σ)
    (subs1 pre post : List (Option Subscription)) (s : Subscription)
    (hlist1 : (t.listSubscriptions fuel c).outcome = .returned (some subs1, none))
    (hinit : ∀ x ∈ subs1, ∃ s1 e1, x = some s1 ∧ s1.Endpoint = some e1 ∧ e1 ≠ e)
    (hsub : (t.client.Subscribe (t.listSubscriptions fuel c).client
      ⟨some t.settings.Arn, some e, some "sqs"⟩).1 = none)
    (hlist2 : (t.listSubscriptions fuel (t.client.Subscribe (t.listSubscriptions fuel c).client
      ⟨some t.settings.Arn, some e, some "sqs"⟩).2).outcome =
        .returned (some (pre ++ some s :: post), none))
    (hs : s.Endpoint = some e)
    (hpre : ∀ x ∈ pre, ∃ s1 e1, x = some s1 ∧ s1.Endpoint = some e1) :
    (t.SubscribeSqs fuel e c).outcome = .returned none ∧
      (t.SubscribeSqs fuel e (t.SubscribeSqs fuel e c).client).outcome = .returned none ∧
      subscribeCalls ((t.SubscribeSqs fuel e c).events ++
          (t.SubscribeSqs fuel e (t.SubscribeSqs fuel e c).client).events) =
        [⟨some t.settings.Arn, some e, some "sqs"⟩] ∧
      subscribeCalls (t.SubscribeSqs fuel e (t.SubscribeSqs fuel e c).client).events = [] := by
  obtain ⟨hev, hcl⟩ := subscriptionExists_events t fuel e c
  have hreach : (t.subscriptionExists fuel e c).outcome = .returned (false, none) := by
    rw [subscriptionExists_of_listing t fuel e c subs1 hlist1]
    exact (subscriptionExistsLoop_false_iff e subs1).mpr hinit
  have hrun1 := SubscribeSqs_absent_run t fuel e c hreach
  rw [hcl, hev, hsub] at hrun1
  have hc1 : (t.SubscribeSqs fuel e c).client =
      (t.client.Subscribe (t.listSubscriptions fuel c).client
        ⟨some t.settings.Arn, some e, some "sqs"⟩).2 := by rw [hrun1]
  rw [hc1]
  obtain ⟨hev2, _⟩ := subscriptionExists_events t fuel e
    (t.client.Subscribe (t.listSubscriptions fuel c).client
      ⟨some t.settings.Arn, some e, some "sqs"⟩).2
  have hfound : (t.subscriptionExists fuel e (t.client.Subscribe
      (t.listSubscriptions fuel c).client
      ⟨some t.settings.Arn, some e, some "sqs"⟩).2).outcome = .returned (true, none) := by
    rw [subscriptionExists_of_listing t fuel e _ _ hlist2]
    exact subscriptionExistsLoop_found e s post hs pre hpre
  have hrun2 := SubscribeSqs_found_run t fuel e _ hfound
  rw [hev2] at hrun2
  rw [hrun2, hrun1]
  have h1 := (listSubscriptions_only_lists t fuel c).1
  have h2 := (listSubscriptions_only_lists t fuel (t.client.Subscribe
    (t.listSubscriptions fuel c).client ⟨some t.settings.Arn, some e, some "sqs"⟩).2).1
  simp [subscribeCalls_append, h1, h2, subscribeCalls]

/-- Subscribing the same queue twice creates one subscription. -/
theorem SubscribeSqs_idempotent_witness :
    subscribeCalls
        (((⟨⟨"log"⟩, stubClient, settingsWithArn "arn:orders"⟩ :
          topic (List (Option Subscription))).SubscribeSqs 1 "queueArn"
          [some (subscriptionWithEndpoint (some "other"))]).events ++
        ((⟨⟨"log"⟩, stubClient, settingsWithArn "arn:orders"⟩ :
          topic (List (Option Subscription))).SubscribeSqs 1 "queueArn"
          ((⟨⟨"log"⟩, stubClient, settingsWithArn "arn:orders"⟩ :
            topic (List (Option Subscription))).SubscribeSqs 1 "queueArn"
            [some (subscriptionWithEndpoint (some "other"))]).client).events) =
      [⟨some "arn:orders", some "queueArn", some "sqs"⟩] :=
  (SubscribeSqs_idempotent ⟨⟨"log"⟩, stubClient, settingsWithArn "arn:orders"⟩ 1 "queueArn"
    [some (subscriptionWithEndpoint (some "other"))]
    [some (subscriptionWithEndpoint (some "other"))]
    [some (subscriptionWithEndpoint (some "other"))] []
    ⟨some "queueArn", none, some "sqs", none, some "arn:orders"⟩ rfl
    (by
      intro x hx
      rw [List.mem_singleton] at hx
      exact ⟨_, _, hx, rfl, by decide⟩)
    rfl rfl rfl
    (by
      intro x hx
      rw [List.mem_singleton] at hx
      exact ⟨_, _, hx, rfl⟩)).2.2.1

/-- C3 as stated fails: the listing initially holds no subscription with endpoint
`e` (its only subscription has a nil endpoint), `Subscribe` succeeds and adds a
subscription with endpoint `e` to the listing, and the listing calls succeed, yet
the first `SubscribeSqs(e)` panics instead of returning nil, and the two calls
together issue no `Subscribe` call. -/
theorem SubscribeSqs_idempotent_counterexample :
    ((⟨⟨"log"⟩, stubClient, settingsWithArn "arn:orders"⟩ :
        topic (List (Option Subscription))).listSubscriptions 1
        [some (subscriptionWithEndpoint none)]).outcome =
        .returned (some [some (subscriptionWithEndpoint none)], none) ∧
      (subscriptionWithEndpoint none).Endpoint ≠ some "queueArn" ∧
      stubClient.Subscribe [some (subscriptionWithEndpoint none)]
          ⟨some "arn:orders", some "queueArn", some "sqs"⟩ =
        (none, [some (subscriptionWithEndpoint none),
          some ⟨some "queueArn", none, some "sqs", none, some "arn:orders"⟩]) ∧
      ((⟨⟨"log"⟩, stubClient, settingsWithArn "arn:orders"⟩ :
        topic (List (Option Subscription))).listSubscriptions 1
        [some (subscriptionWithEndpoint none),
          some ⟨some "queueArn", none, some "sqs", none, some "arn:orders"⟩]).outcome =
        .returned (some [some (subscriptionWithEndpoint none),
          some ⟨some "queueArn", none, some "sqs", none, some "arn:orders"⟩], none) ∧
      ((⟨⟨"log"⟩, stubClient, settingsWithArn "arn:orders"⟩ :
        topic (List (Option Subscription))).SubscribeSqs 1 "queueArn"
        [some (subscriptionWithEndpoint none)]).outcome = .panicked .nilPointerDereference ∧
      subscribeCalls
        (((⟨⟨"log"⟩, stubClient, settingsWithArn "arn:orders"⟩ :
          topic (List (Option Subscription))).SubscribeSqs 1 "queueArn"
          [some (subscriptionWithEndpoint none)]).events ++
        ((⟨⟨"log"⟩, stubClient, settingsWithArn "arn:orders"⟩ :
          topic (List (Option Subscription))).SubscribeSqs 1 "queueArn"
          ((⟨⟨"log"⟩, stubClient, settingsWithArn "arn:orders"⟩ :
            topic (List (Option Subscription))).SubscribeSqs 1 "queueArn"
            [some (subscriptionWithEndpoint none)]).client).events) = [] :=
  ⟨rfl, by decide, rfl, rfl, rfl, rfl⟩

end sns
